import Mathlib

/-!
Verification of the `plan_trip` route-planning heuristic of the Ampora EV
backend (`src/main.py`, lines 161-245).  The Python floats are modelled as
real numbers; the MongoDB station documents returned by the collaborator
call `db["chargingstation"].find({}).limit(50)` are modelled as a list of
`Station` records whose optional fields mirror `dict.get` with defaults.
-/

/-- Request body of `POST /api/plan-trip` (`TripRequest`, src/main.py 161-169).
Pydantic validates `current_soc_percent` and `target_arrival_soc_percent`
into [0,100]; those bounds appear as hypotheses where needed. -/
structure TripRequest where
  origin_lat : ℝ
  origin_lng : ℝ
  dest_lat : ℝ
  dest_lng : ℝ
  vehicle_battery_kwh : ℝ
  vehicle_efficiency_kwh_per_100km : ℝ
  current_soc_percent : ℝ
  target_arrival_soc_percent : ℝ

/-- A charging-station document as read back from the store.  Fields other
than `_id` are accessed in the source with `station.get(key, default)`, so
they are modelled as `Option`; `id` models `str(station.get("_id"))`. -/
structure Station where
  id : String
  name : Option String
  latitude : Option ℝ
  longitude : Option ℝ
  power_kw : Option ℝ

instance : Inhabited Station := ⟨⟨"", none, none, none, none⟩⟩

/-- `RoutePlanStop` (src/schemas.py 59-65). -/
structure RoutePlanStop where
  station_id : String
  station_name : String
  latitude : ℝ
  longitude : ℝ
  charge_minutes : ℤ
  notes : Option String

/-- `RoutePlan` (src/schemas.py 67-78). -/
structure RoutePlan where
  origin_lat : ℝ
  origin_lng : ℝ
  dest_lat : ℝ
  dest_lng : ℝ
  vehicle_battery_kwh : ℝ
  vehicle_efficiency_kwh_per_100km : ℝ
  current_soc_percent : ℝ
  target_arrival_soc_percent : ℝ
  total_distance_km : ℝ
  estimated_duration_minutes : ℤ
  stops : List RoutePlanStop

/-- FastAPI `HTTPException` payload: status code plus detail message. -/
structure HTTPError where
  status_code : ℕ
  detail : String

/-- `math.radians` : degrees to radians. -/
noncomputable def radians (x : ℝ) : ℝ := x * Real.pi / 180

/-- `math.atan2 y x` : the two-argument arctangent, with the usual
quadrant corrections of the C library function. -/
noncomputable def atan2 (y x : ℝ) : ℝ :=
  if 0 < x then Real.arctan (y / x)
  else if x < 0 then
    (if 0 ≤ y then Real.arctan (y / x) + Real.pi else Real.arctan (y / x) - Real.pi)
  else if 0 < y then Real.pi / 2
  else if y < 0 then -(Real.pi / 2)
  else 0

/-- The haversine intermediate `a` (src/main.py 177-179). -/
noncomputable def haversineA (lat1 lng1 lat2 lng2 : ℝ) : ℝ :=
  Real.sin (radians (lat2 - lat1) / 2) ^ 2 +
    Real.cos (radians lat1) * Real.cos (radians lat2) *
      Real.sin (radians (lng2 - lng1) / 2) ^ 2

/-- Great-circle distance in km: `R * c` with `R = 6371` and
`c = 2 * atan2(sqrt a, sqrt (1 - a))` (src/main.py 176-181). -/
noncomputable def haversineDist (lat1 lng1 lat2 lng2 : ℝ) : ℝ :=
  6371 * (2 * atan2 (Real.sqrt (haversineA lat1 lng1 lat2 lng2))
    (Real.sqrt (1 - haversineA lat1 lng1 lat2 lng2)))

/-- `distance_km` of the request (src/main.py 181). -/
noncomputable def distReq (req : TripRequest) : ℝ :=
  haversineDist req.origin_lat req.origin_lng req.dest_lat req.dest_lng

/-- `usable_kwh = vehicle_battery_kwh * (current_soc_percent / 100)`
(src/main.py 183). -/
noncomputable def usableKwh (req : TripRequest) : ℝ :=
  req.vehicle_battery_kwh * (req.current_soc_percent / 100)

/-- `kwh_per_km = vehicle_efficiency_kwh_per_100km / 100` (src/main.py 184). -/
noncomputable def kwhPerKm (req : TripRequest) : ℝ :=
  req.vehicle_efficiency_kwh_per_100km / 100

/-- `max_km_now = usable_kwh / kwh_per_km if kwh_per_km else distance_km`
(src/main.py 185): Python truthiness means the quotient is taken exactly
when `kwh_per_km` is nonzero. -/
noncomputable def maxKmNow (req : TripRequest) : ℝ :=
  if kwhPerKm req = 0 then distReq req else usableKwh req / kwhPerKm req

/-- Python `round(x, 1)`: rounding to one decimal place. -/
noncomputable def round1 (x : ℝ) : ℝ := ((round (x * 10) : ℤ) : ℝ) / 10

/-- Python `int(x)`: truncation toward zero. -/
noncomputable def pyInt (x : ℝ) : ℤ := if 0 ≤ x then ⌊x⌋ else ⌈x⌉

/-- The sort key `lambda s: s.get("power_kw", 0)` (src/main.py 213). -/
noncomputable def stationKey (s : Station) : ℝ := s.power_kw.getD 0

/-- Stable descending insertion: a later element `a` is placed after every
already-placed element of key ≥ its own, reproducing the stable order of
Python's `sorted(..., reverse=True)`. -/
noncomputable def insertDesc (a : Station) : List Station → List Station
  | [] => [a]
  | t :: ts =>
    if stationKey t ≤ stationKey a then a :: t :: ts else t :: insertDesc a ts

/-- Stable descending sort by `power_kw`, modelling
`sorted(stations, key=lambda s: s.get("power_kw", 0), reverse=True)`
(src/main.py 213). -/
noncomputable def sortDesc : List Station → List Station
  | [] => []
  | a :: l => insertDesc a (sortDesc l)

/-- `sorted(stations, ...)[0]` : head of the stable descending sort. -/
noncomputable def selectStation (stations : List Station) : Station :=
  (sortDesc stations).headI

/-- `charge_minutes = 25 if station.get("power_kw", 50) >= 150 else 35`
(src/main.py 216). -/
noncomputable def chargeOf (st : Station) : ℤ :=
  if (150 : ℝ) ≤ st.power_kw.getD 50 then 25 else 35

/-- The `RoutePlanStop` built for the selected station (src/main.py 222-229). -/
noncomputable def mkStop (req : TripRequest) (st : Station) : RoutePlanStop :=
  { station_id := st.id
    station_name := st.name.getD "Station"
    latitude := st.latitude.getD req.origin_lat
    longitude := st.longitude.getD req.origin_lng
    charge_minutes := chargeOf st
    notes := some "Heuristic stop based on fastest available charger" }

/-- The feasible-branch `RoutePlan` (src/main.py 191-205):
`duration_minutes = int(distance_km / 90 * 60)`, empty stops. -/
noncomputable def directPlan (req : TripRequest) : RoutePlan :=
  { origin_lat := req.origin_lat
    origin_lng := req.origin_lng
    dest_lat := req.dest_lat
    dest_lng := req.dest_lng
    vehicle_battery_kwh := req.vehicle_battery_kwh
    vehicle_efficiency_kwh_per_100km := req.vehicle_efficiency_kwh_per_100km
    current_soc_percent := req.current_soc_percent
    target_arrival_soc_percent := req.target_arrival_soc_percent
    total_distance_km := round1 (distReq req)
    estimated_duration_minutes := pyInt (distReq req / 90 * 60)
    stops := [] }

/-- The infeasible-branch `RoutePlan` (src/main.py 218-245):
`duration_minutes = int(distance_km / 90 * 60 + charge_minutes)`, one stop. -/
noncomputable def stopPlan (req : TripRequest) (st : Station) : RoutePlan :=
  { origin_lat := req.origin_lat
    origin_lng := req.origin_lng
    dest_lat := req.dest_lat
    dest_lng := req.dest_lng
    vehicle_battery_kwh := req.vehicle_battery_kwh
    vehicle_efficiency_kwh_per_100km := req.vehicle_efficiency_kwh_per_100km
    current_soc_percent := req.current_soc_percent
    target_arrival_soc_percent := req.target_arrival_soc_percent
    total_distance_km := round1 (distReq req)
    estimated_duration_minutes := pyInt (distReq req / 90 * 60 + (chargeOf st : ℝ))
    stops := [mkStop req st] }

/-- `POST /api/plan-trip` (src/main.py 171-245).  `stations` is the list the
collaborator returns for `db["chargingstation"].find({}).limit(50)`.  The
branch condition is the source's `max_km_now >= distance_km * 1.05`; an
empty station list in the infeasible branch raises `HTTPException(400)`. -/
noncomputable def plan_trip (req : TripRequest) (stations : List Station) :
    Except HTTPError RoutePlan :=
  if distReq req * 1.05 ≤ maxKmNow req then
    Except.ok (directPlan req)
  else
    match stations with
    | [] => Except.error { status_code := 400, detail := "No stations available to plan route" }
    | s :: rest => Except.ok (stopPlan req (selectStation (s :: rest)))

/-- Replacing the echoed target-SOC field by a fixed value, used to compare
plans up to that field. -/
def eraseTarget (p : RoutePlan) : RoutePlan := { p with target_arrival_soc_percent := 0 }

/-- Concrete feasible request: origin equals destination, 75 kWh battery,
18 kWh/100km, 90% SOC (spec §8 scenario A geometry collapsed to zero
distance so the feasibility hypothesis is decidable). -/
noncomputable def c1req : TripRequest := ⟨37.7749, -122.4194, 37.7749, -122.4194, 75, 18, 90, 10⟩

/-- Concrete infeasible request: equator antipodes, 40 kWh, 20 kWh/100km,
0% SOC. -/
noncomputable def c2req : TripRequest := ⟨0, 0, 0, 180, 40, 20, 0, 10⟩

/-- A 150 kW station. -/
noncomputable def c2st : Station := ⟨"sA", some "Alpha", some 10, some 20, some 150⟩

/-- Concrete infeasible request used for the no-stations failure. -/
noncomputable def c3req : TripRequest := ⟨0, 0, 0, 180, 40, 20, 0, 10⟩

/-- Zero-efficiency request over a positive distance. -/
noncomputable def c4req : TripRequest := ⟨0, 0, 0, 180, 40, 0, 50, 10⟩

/-- A station available for the zero-efficiency counterexample. -/
noncomputable def c4st : Station := ⟨"s1", none, none, none, some 150⟩

/-- Zero-efficiency request over zero distance. -/
noncomputable def c4breq : TripRequest := ⟨0, 0, 0, 0, 40, 0, 50, 10⟩

/-- Concrete infeasible request for the charge-time rule. -/
noncomputable def c5req : TripRequest := ⟨0, 0, 0, 180, 30, 15, 0, 10⟩

/-- A station lacking a power rating. -/
noncomputable def c5st : Station := ⟨"sB", none, none, none, none⟩

/-- Concrete feasible request for SOC monotonicity. -/
noncomputable def c6req : TripRequest := ⟨0, 0, 0, 0, 75, 18, 50, 10⟩

/-- A 100 kW station, first in the returned order. -/
noncomputable def c9a : Station := ⟨"a", some "A", none, none, some 100⟩

/-- A 150 kW station, the first to attain the maximal power. -/
noncomputable def c9m : Station := ⟨"b", some "B", none, none, some 150⟩

/-- A 150 kW station tied with the previous one but returned later. -/
noncomputable def c9c : Station := ⟨"c", some "C", none, none, some 150⟩

/-- A station with no power rating. -/
noncomputable def c10a : Station := ⟨"x", none, none, none, none⟩

/-- A 100 kW station listed after the unrated one. -/
noncomputable def c10b : Station := ⟨"y", none, none, none, some 100⟩

/-- Degree zero is radian zero. -/
lemma radians_zero : radians 0 = 0 := by simp [radians]

/-- 180 degrees is π radians. -/
lemma radians_180 : radians 180 = Real.pi := by
  unfold radians; ring

/-- Negating the angle difference negates the radian value. -/
lemma radians_neg (x : ℝ) : radians (-x) = -radians x := by
  unfold radians; ring

/-- `atan2` of a nonnegative point in the closed right half plane is
nonnegative. -/
lemma atan2_nonneg {y x : ℝ} (hy : 0 ≤ y) (hx : 0 ≤ x) : 0 ≤ atan2 y x := by
  unfold atan2
  split_ifs with h1 h2 h3 h4
  · have h0 : (0 : ℝ) ≤ y / x := div_nonneg hy h1.le
    have harc := Real.arctan_strictMono.monotone h0
    rwa [Real.arctan_zero] at harc
  all_goals linarith [Real.pi_pos]

/-- `atan2 0 1 = 0`. -/
lemma atan2_zero_one : atan2 0 1 = 0 := by
  unfold atan2
  rw [if_pos one_pos]
  norm_num

/-- `atan2 1 0 = π / 2`. -/
lemma atan2_one_zero : atan2 1 0 = Real.pi / 2 := by
  unfold atan2
  norm_num

/-- The haversine `a`-value vanishes when the two points coincide. -/
lemma haversineA_self (la lo : ℝ) : haversineA la lo la lo = 0 := by
  unfold haversineA
  simp [sub_self, radians_zero]

/-- The haversine `a`-value is symmetric in the two points. -/
lemma haversineA_symm (la lo lb lp : ℝ) :
    haversineA lb lp la lo = haversineA la lo lb lp := by
  unfold haversineA
  have h1 : radians (la - lb) = -radians (lb - la) := by unfold radians; ring
  have h2 : radians (lo - lp) = -radians (lp - lo) := by unfold radians; ring
  rw [h1, h2, neg_div, neg_div, Real.sin_neg, Real.sin_neg]
  ring

/-- Distance from a point to itself is zero. -/
lemma haversineDist_self (la lo : ℝ) : haversineDist la lo la lo = 0 := by
  unfold haversineDist
  rw [haversineA_self]
  norm_num [atan2_zero_one]

/-- The `a`-value of the equatorial antipodal pair `(0,0)`, `(0,180)` is 1. -/
lemma haversineA_antipodal : haversineA 0 0 0 180 = 1 := by
  unfold haversineA
  rw [sub_zero, sub_zero, radians_zero, radians_180]
  simp [Real.sin_pi_div_two]

/-- The equatorial antipodal pair is `6371 * π` km apart. -/
lemma haversineDist_antipodal : haversineDist 0 0 0 180 = 6371 * Real.pi := by
  unfold haversineDist
  rw [haversineA_antipodal]
  norm_num [atan2_one_zero]
  ring

/-- The haversine distance is never negative. -/
lemma haversineDist_nonneg (la lo lb lp : ℝ) : 0 ≤ haversineDist la lo lb lp := by
  unfold haversineDist
  have h := atan2_nonneg (Real.sqrt_nonneg (haversineA la lo lb lp))
    (Real.sqrt_nonneg (1 - haversineA la lo lb lp))
  nlinarith

/-- The request distance is never negative. -/
lemma distReq_nonneg (req : TripRequest) : 0 ≤ distReq req :=
  haversineDist_nonneg _ _ _ _

/-- `insertDesc` never produces the empty list. -/
lemma insertDesc_ne_nil (a : Station) (l : List Station) : insertDesc a l ≠ [] := by
  cases l with
  | nil => simp [insertDesc]
  | cons t ts =>
    simp only [insertDesc]
    split <;> simp

/-- Sorting a nonempty list gives a nonempty list. -/
lemma sortDesc_ne_nil (a : Station) (l : List Station) : sortDesc (a :: l) ≠ [] := by
  simp only [sortDesc]
  exact insertDesc_ne_nil _ _

/-- Membership in an insertion. -/
lemma mem_insertDesc (x a : Station) (l : List Station) :
    x ∈ insertDesc a l ↔ x = a ∨ x ∈ l := by
  induction l with
  | nil => simp [insertDesc]
  | cons t ts ih =>
    simp only [insertDesc]
    split
    · simp only [List.mem_cons]
    · simp only [List.mem_cons, ih]
      tauto

/-- Sorting does not change membership. -/
lemma mem_sortDesc (x : Station) (l : List Station) : x ∈ sortDesc l ↔ x ∈ l := by
  induction l with
  | nil => simp [sortDesc]
  | cons a as ih => simp [sortDesc, mem_insertDesc, ih]

/-- Head of an insertion into a nonempty list. -/
lemma headI_insertDesc (a t : Station) (ts : List Station) :
    (insertDesc a (t :: ts)).headI =
      if stationKey t ≤ stationKey a then a else t := by
  simp only [insertDesc]
  split <;> rfl

/-- The head of the descending sort belongs to the original list. -/
lemma sortDesc_headI_mem (l : List Station) (hl : l ≠ []) : (sortDesc l).headI ∈ l := by
  have h2 : sortDesc l ≠ [] := by
    cases l with
    | nil => exact absurd rfl hl
    | cons a as => exact sortDesc_ne_nil a as
  have h3 : (sortDesc l).headI ∈ sortDesc l := by
    cases hsd : sortDesc l with
    | nil => exact absurd hsd h2
    | cons b bs => simp
  exact (mem_sortDesc _ _).mp h3

/-- The head of the descending sort dominates every element's key. -/
lemma sortDesc_headI_max (l : List Station) :
    ∀ x ∈ l, stationKey x ≤ stationKey ((sortDesc l).headI) := by
  induction l with
  | nil => intro x hx; simp at hx
  | cons a as ih =>
    intro x hx
    rcases List.mem_cons.mp hx with hxa | hxas
    · subst hxa
      cases has : sortDesc as with
      | nil => simp [sortDesc, has, insertDesc]
      | cons t ts =>
        rw [show sortDesc (x :: as) = insertDesc x (sortDesc as) from rfl, has,
          headI_insertDesc]
        split
        · exact le_refl _
        · next h => exact le_of_not_le h
    · have hkx := ih x hxas
      cases has : sortDesc as with
      | nil =>
        cases as with
        | nil => simp at hxas
        | cons b bs => exact absurd has (sortDesc_ne_nil b bs)
      | cons t ts =>
        rw [show sortDesc (a :: as) = insertDesc a (sortDesc as) from rfl, has,
          headI_insertDesc]
        rw [has] at hkx
        simp only [List.headI] at hkx
        split
        · next h => exact le_trans hkx h
        · exact hkx

/-- The head of the stable descending sort is the first element attaining
the maximal key: everything before it is strictly smaller, everything after
it is no larger. -/
lemma sortDesc_headI_first (l₁ : List Station) (m : Station) (l₂ : List Station)
    (h1 : ∀ s ∈ l₁, stationKey s < stationKey m)
    (h2 : ∀ s ∈ l₂, stationKey s ≤ stationKey m) :
    (sortDesc (l₁ ++ m :: l₂)).headI = m := by
  induction l₁ with
  | nil =>
    simp only [List.nil_append]
    cases h : sortDesc l₂ with
    | nil => simp [sortDesc, h, insertDesc]
    | cons t ts =>
      have htmem : t ∈ l₂ := by
        have ht : t ∈ sortDesc l₂ := by rw [h]; simp
        exact (mem_sortDesc _ _).mp ht
      rw [show sortDesc (m :: l₂) = insertDesc m (sortDesc l₂) from rfl, h,
        headI_insertDesc, if_pos (h2 t htmem)]
  | cons a l₁ ih =>
    have hin : sortDesc (l₁ ++ m :: l₂) ≠ [] := by
      cases hl : l₁ ++ m :: l₂ with
      | nil => simp at hl
      | cons b bs => exact sortDesc_ne_nil b bs
    have hih : (sortDesc (l₁ ++ m :: l₂)).headI = m :=
      ih (fun s hs => h1 s (List.mem_cons_of_mem a hs))
    cases h : sortDesc (l₁ ++ m :: l₂) with
    | nil => exact absurd h hin
    | cons t ts =>
      have htm : t = m := by
        rw [h] at hih
        simpa using hih
      rw [show sortDesc ((a :: l₁) ++ m :: l₂) = insertDesc a (sortDesc (l₁ ++ m :: l₂))
          from rfl, h, headI_insertDesc, htm,
        if_neg (not_le.mpr (h1 a (List.mem_cons_self a l₁)))]

/-- Claim C7: the Distance Estimator is symmetric — the haversine distance
from A to B equals the distance from B to A — and the distance from a point
to itself is 0. -/
theorem claim_c7 (la lo lb lp : ℝ) :
    haversineDist la lo lb lp = haversineDist lb lp la lo ∧
      haversineDist la lo la lo = 0 := by
  constructor
  · unfold haversineDist
    rw [haversineA_symm la lo lb lp]
  · exact haversineDist_self la lo

/-- Claim C1: with positive efficiency, whenever the max reachable km
`(battery * soc/100) / (eff/100)` is at least the haversine distance times
1.05, `plan_trip` returns the direct `RoutePlan`: empty stop sequence,
duration `int(distance_km / 90 * 60)`, total distance `round(distance_km, 1)`. -/
theorem claim_c1 (req : TripRequest) (stations : List Station)
    (he : 0 < req.vehicle_efficiency_kwh_per_100km)
    (hfeas : distReq req * 1.05 ≤ usableKwh req / kwhPerKm req) :
    plan_trip req stations = Except.ok (directPlan req) ∧
      (directPlan req).stops = [] ∧
      (directPlan req).estimated_duration_minutes = pyInt (distReq req / 90 * 60) ∧
      (directPlan req).total_distance_km = round1 (distReq req) := by
  have hkpos : 0 < kwhPerKm req := div_pos he (by norm_num)
  have hmax : maxKmNow req = usableKwh req / kwhPerKm req := by
    unfold maxKmNow
    rw [if_neg (ne_of_gt hkpos)]
  refine ⟨?_, rfl, rfl, rfl⟩
  unfold plan_trip
  rw [if_pos (by rw [hmax]; exact hfeas)]

/-- Claim C1 witness: for the concrete feasible request `c1req` both
hypotheses hold and `plan_trip` produces the direct plan. -/
theorem claim_c1_witness :
    (0 < c1req.vehicle_efficiency_kwh_per_100km ∧
      distReq c1req * 1.05 ≤ usableKwh c1req / kwhPerKm c1req) ∧
      plan_trip c1req [] = Except.ok (directPlan c1req) := by
  have hd : distReq c1req = 0 := haversineDist_self 37.7749 (-122.4194)
  have h1 : 0 < c1req.vehicle_efficiency_kwh_per_100km := by norm_num [c1req]
  have h2 : distReq c1req * 1.05 ≤ usableKwh c1req / kwhPerKm c1req := by
    rw [hd]
    unfold usableKwh kwhPerKm
    norm_num [c1req]
  exact ⟨⟨h1, h2⟩, (claim_c1 c1req [] h1 h2).1⟩

/-- Claim C2: for an infeasible request and a nonempty station list,
`plan_trip` returns the single-stop plan built from the selected station;
the selected station is a returned station of maximal power key, and the
duration is `int(distance_km / 90 * 60 + charge_minutes)`. -/
theorem claim_c2 (req : TripRequest) (s : Station) (rest : List Station)
    (hinf : maxKmNow req < distReq req * 1.05) :
    plan_trip req (s :: rest) = Except.ok (stopPlan req (selectStation (s :: rest))) ∧
      (stopPlan req (selectStation (s :: rest))).stops.length = 1 ∧
      selectStation (s :: rest) ∈ s :: rest ∧
      (∀ x ∈ s :: rest, stationKey x ≤ stationKey (selectStation (s :: rest))) ∧
      (stopPlan req (selectStation (s :: rest))).estimated_duration_minutes =
        pyInt (distReq req / 90 * 60 + (chargeOf (selectStation (s :: rest)) : ℝ)) := by
  have hn : ¬ distReq req * 1.05 ≤ maxKmNow req := not_le.mpr hinf
  refine ⟨?_, rfl, ?_, ?_, rfl⟩
  · unfold plan_trip
    rw [if_neg hn]
  · exact sortDesc_headI_mem (s :: rest) (List.cons_ne_nil s rest)
  · exact sortDesc_headI_max (s :: rest)

/-- Claim C2 witness: the concrete infeasible request `c2req` with the
single station `c2st` yields the one-stop plan. -/
theorem claim_c2_witness :
    maxKmNow c2req < distReq c2req * 1.05 ∧
      plan_trip c2req [c2st] = Except.ok (stopPlan c2req (selectStation [c2st])) := by
  have hd : distReq c2req = 6371 * Real.pi := haversineDist_antipodal
  have hk : kwhPerKm c2req ≠ 0 := by
    unfold kwhPerKm
    norm_num [c2req]
  have hmax : maxKmNow c2req = 0 := by
    unfold maxKmNow
    rw [if_neg hk]
    unfold usableKwh kwhPerKm
    norm_num [c2req]
  have hinf : maxKmNow c2req < distReq c2req * 1.05 := by
    rw [hmax, hd]
    positivity
  exact ⟨hinf, (claim_c2 c2req c2st [] hinf).1⟩

/-- Claim C3: `plan_trip` fails exactly when the request is infeasible and
the collaborator returned no stations, and then the failure is the
client-facing 400 error with detail "No stations available to plan route";
no other failure path exists. -/
theorem claim_c3 (req : TripRequest) (stations : List Station) (e : HTTPError) :
    plan_trip req stations = Except.error e ↔
      ¬ distReq req * 1.05 ≤ maxKmNow req ∧ stations = [] ∧
        e = { status_code := 400, detail := "No stations available to plan route" } := by
  unfold plan_trip
  by_cases h : distReq req * 1.05 ≤ maxKmNow req
  · rw [if_pos h]
    simp [h]
  · rw [if_neg h]
    cases stations with
    | nil => simp [h, eq_comm]
    | cons s rest => simp [h]

/-- Claim C4 counterexample: a zero-efficiency request over a positive
distance (equator antipodes) does NOT take the direct-plan branch — with a
station available, `plan_trip` returns a plan with one stop, not an empty
stop sequence. -/
theorem claim_c4_counterexample :
    plan_trip c4req [c4st] = Except.ok (stopPlan c4req (selectStation [c4st])) ∧
      (stopPlan c4req (selectStation [c4st])).stops.length = 1 ∧
      c4req.vehicle_efficiency_kwh_per_100km = 0 := by
  have hd : distReq c4req = 6371 * Real.pi := haversineDist_antipodal
  have hk : kwhPerKm c4req = 0 := by
    unfold kwhPerKm
    norm_num [c4req]
  have hmax : maxKmNow c4req = distReq c4req := by
    unfold maxKmNow
    rw [if_pos hk]
  have hn : ¬ distReq c4req * 1.05 ≤ maxKmNow c4req := by
    rw [hmax, hd]
    intro hcon
    nlinarith [Real.pi_pos]
  refine ⟨?_, rfl, by norm_num [c4req]⟩
  unfold plan_trip
  rw [if_neg hn]

/-- Claim C4 amended: with efficiency 0 the code defines max reachable km to
be the trip distance itself, but because of the 5% buffer this makes the
direct-plan branch taken iff the distance is zero; a zero-distance trip then
gets the stop-free direct plan. -/
theorem claim_c4 (req : TripRequest)
    (heff : req.vehicle_efficiency_kwh_per_100km = 0) :
    maxKmNow req = distReq req ∧
      (distReq req * 1.05 ≤ maxKmNow req ↔ distReq req = 0) ∧
      (distReq req = 0 →
        ∀ stations, plan_trip req stations = Except.ok (directPlan req)) := by
  have hk : kwhPerKm req = 0 := by
    unfold kwhPerKm
    rw [heff]
    norm_num
  have hmax : maxKmNow req = distReq req := by
    unfold maxKmNow
    rw [if_pos hk]
  have hnn : 0 ≤ distReq req := distReq_nonneg req
  refine ⟨hmax, ?_, ?_⟩
  · rw [hmax]
    constructor
    · intro h
      linarith
    · intro h
      rw [h]
      norm_num
  · intro h0 stations
    unfold plan_trip
    rw [if_pos (by rw [hmax, h0]; norm_num)]

/-- Claim C4 witness: the zero-efficiency, zero-distance request `c4breq`
satisfies the hypothesis and the amended conclusions. -/
theorem claim_c4_witness :
    c4breq.vehicle_efficiency_kwh_per_100km = 0 ∧
      maxKmNow c4breq = distReq c4breq ∧
      plan_trip c4breq [] = Except.ok (directPlan c4breq) := by
  have heff : c4breq.vehicle_efficiency_kwh_per_100km = 0 := by norm_num [c4breq]
  have hd : distReq c4breq = 0 := haversineDist_self 0 0
  have h := claim_c4 c4breq heff
  exact ⟨heff, h.1, h.2.2 hd []⟩

/-- Claim C5: in the infeasible branch the stop's charge time is 25 minutes
iff the selected station's `power_kw` (defaulting to 50 when missing) is at
least 150 kW, otherwise 35; in particular a selected station with no power
rating gets 35 minutes. -/
theorem claim_c5 (req : TripRequest) (s : Station) (rest : List Station)
    (hinf : maxKmNow req < distReq req * 1.05) :
    Except.map (fun p => p.stops.map (fun st => st.charge_minutes))
        (plan_trip req (s :: rest)) =
      Except.ok [if (150 : ℝ) ≤ (selectStation (s :: rest)).power_kw.getD 50
        then (25 : ℤ) else 35] ∧
      ((selectStation (s :: rest)).power_kw = none →
        Except.map (fun p => p.stops.map (fun st => st.charge_minutes))
            (plan_trip req (s :: rest)) = Except.ok [(35 : ℤ)]) := by
  have hn : ¬ distReq req * 1.05 ≤ maxKmNow req := not_le.mpr hinf
  have h1 : plan_trip req (s :: rest) =
      Except.ok (stopPlan req (selectStation (s :: rest))) := by
    unfold plan_trip
    rw [if_neg hn]
  constructor
  · rw [h1]
    rfl
  · intro hnone
    rw [h1]
    show Except.ok [chargeOf (selectStation (s :: rest))] = Except.ok [(35 : ℤ)]
    unfold chargeOf
    rw [hnone]
    norm_num

/-- Claim C5 witness: for the concrete infeasible request `c5req` and the
unrated station `c5st`, the selected stop gets 35 minutes. -/
theorem claim_c5_witness :
    maxKmNow c5req < distReq c5req * 1.05 ∧
      Except.map (fun p => p.stops.map (fun st => st.charge_minutes))
          (plan_trip c5req [c5st]) = Except.ok [(35 : ℤ)] := by
  have hd : distReq c5req = 6371 * Real.pi := haversineDist_antipodal
  have hk : kwhPerKm c5req ≠ 0 := by
    unfold kwhPerKm
    norm_num [c5req]
  have hmax : maxKmNow c5req = 0 := by
    unfold maxKmNow
    rw [if_neg hk]
    unfold usableKwh kwhPerKm
    norm_num [c5req]
  have hinf : maxKmNow c5req < distReq c5req * 1.05 := by
    rw [hmax, hd]
    positivity
  have hnone : (selectStation [c5st]).power_kw = none := rfl
  exact ⟨hinf, (claim_c5 c5req c5st [] hinf).2 hnone⟩

/-- Claim C6: for a trip request (battery and efficiency positive per the
data-model invariant), if the feasibility condition holds at SOC `s`, it
still holds after raising the SOC to any `s' ≥ s` (with `s' ≤ 100`), and
`plan_trip` then returns the direct plan — raising SOC never flips a
feasible plan to infeasible. -/
theorem claim_c6 (req : TripRequest) (s' : ℝ) (stations : List Station)
    (hb : 0 < req.vehicle_battery_kwh)
    (he : 0 < req.vehicle_efficiency_kwh_per_100km)
    (hs : req.current_soc_percent ≤ s') (_hs100 : s' ≤ 100)
    (hfeas : distReq req * 1.05 ≤ maxKmNow req) :
    distReq { req with current_soc_percent := s' } * 1.05 ≤
        maxKmNow { req with current_soc_percent := s' } ∧
      plan_trip { req with current_soc_percent := s' } stations =
        Except.ok (directPlan { req with current_soc_percent := s' }) := by
  have hkpos : 0 < kwhPerKm req := div_pos he (by norm_num)
  have hkne : kwhPerKm req ≠ 0 := ne_of_gt hkpos
  have hd2 : distReq { req with current_soc_percent := s' } = distReq req := rfl
  have hu : usableKwh req ≤ usableKwh { req with current_soc_percent := s' } := by
    show req.vehicle_battery_kwh * (req.current_soc_percent / 100) ≤
      req.vehicle_battery_kwh * (s' / 100)
    have hdiv : req.current_soc_percent / 100 ≤ s' / 100 := by linarith
    exact mul_le_mul_of_nonneg_left hdiv hb.le
  have hm1 : maxKmNow req = usableKwh req / kwhPerKm req := by
    unfold maxKmNow
    rw [if_neg hkne]
  have hm2 : maxKmNow { req with current_soc_percent := s' } =
      usableKwh { req with current_soc_percent := s' } / kwhPerKm req := by
    show (if kwhPerKm req = 0 then distReq { req with current_soc_percent := s' }
      else usableKwh { req with current_soc_percent := s' } / kwhPerKm req) = _
    rw [if_neg hkne]
  have hle : maxKmNow req ≤ maxKmNow { req with current_soc_percent := s' } := by
    rw [hm1, hm2]
    gcongr
  have hres : distReq { req with current_soc_percent := s' } * 1.05 ≤
      maxKmNow { req with current_soc_percent := s' } := by
    rw [hd2]
    exact le_trans hfeas hle
  refine ⟨hres, ?_⟩
  unfold plan_trip
  rw [if_pos hres]

/-- Claim C6 witness: the concrete feasible request `c6req` stays feasible
when its SOC rises from 50 to 90. -/
theorem claim_c6_witness :
    (0 < c6req.vehicle_battery_kwh ∧ 0 < c6req.vehicle_efficiency_kwh_per_100km ∧
      c6req.current_soc_percent ≤ 90 ∧ (90 : ℝ) ≤ 100 ∧
      distReq c6req * 1.05 ≤ maxKmNow c6req) ∧
      plan_trip { c6req with current_soc_percent := 90 } [] =
        Except.ok (directPlan { c6req with current_soc_percent := 90 }) := by
  have hd : distReq c6req = 0 := haversineDist_self 0 0
  have hb : 0 < c6req.vehicle_battery_kwh := by norm_num [c6req]
  have he : 0 < c6req.vehicle_efficiency_kwh_per_100km := by norm_num [c6req]
  have hs : c6req.current_soc_percent ≤ 90 := by norm_num [c6req]
  have hk : kwhPerKm c6req ≠ 0 := by
    unfold kwhPerKm
    norm_num [c6req]
  have hfeas : distReq c6req * 1.05 ≤ maxKmNow c6req := by
    rw [hd]
    unfold maxKmNow
    rw [if_neg hk]
    unfold usableKwh kwhPerKm
    norm_num [c6req]
  exact ⟨⟨hb, he, hs, by norm_num, hfeas⟩,
    (claim_c6 c6req 90 [] hb he hs (by norm_num) hfeas).2⟩

/-- Claim C8: `target_arrival_soc_percent` does not influence the
computation — replacing it changes nothing in the outcome but the echoed
field, and on success the plan echoes the request's target SOC. -/
theorem claim_c8 (req : TripRequest) (t : ℝ) (stations : List Station) :
    Except.map eraseTarget
        (plan_trip { req with target_arrival_soc_percent := t } stations) =
      Except.map eraseTarget (plan_trip req stations) ∧
      Except.map
          (fun p => { p with target_arrival_soc_percent := req.target_arrival_soc_percent })
          (plan_trip req stations) = plan_trip req stations := by
  constructor
  · unfold plan_trip
    by_cases h : distReq req * 1.05 ≤ maxKmNow req
    · rw [if_pos h, if_pos (show distReq { req with target_arrival_soc_percent := t } * 1.05 ≤
        maxKmNow { req with target_arrival_soc_percent := t } from h)]
      rfl
    · rw [if_neg h, if_neg (show ¬ distReq { req with target_arrival_soc_percent := t } * 1.05 ≤
        maxKmNow { req with target_arrival_soc_percent := t } from h)]
      cases stations with
      | nil => rfl
      | cons s rest => rfl
  · unfold plan_trip
    by_cases h : distReq req * 1.05 ≤ maxKmNow req
    · rw [if_pos h]
      rfl
    · rw [if_neg h]
      cases stations with
      | nil => rfl
      | cons s rest => rfl

/-- Claim C9: the tie-break is deterministic — if every station before `m`
in the returned order has a strictly smaller power key and every station
after it has a key no larger, the stable descending sort puts `m` first, so
`m` is the selected station. -/
theorem claim_c9 (l₁ : List Station) (m : Station) (l₂ : List Station)
    (h1 : ∀ s ∈ l₁, stationKey s < stationKey m)
    (h2 : ∀ s ∈ l₂, stationKey s ≤ stationKey m) :
    selectStation (l₁ ++ m :: l₂) = m := by
  unfold selectStation
  exact sortDesc_headI_first l₁ m l₂ h1 h2

/-- Claim C9 witness: with a 100 kW station first, then two 150 kW stations
tied for the maximum, the earlier 150 kW station is selected. -/
theorem claim_c9_witness :
    (∀ s ∈ [c9a], stationKey s < stationKey c9m) ∧
      (∀ s ∈ [c9c], stationKey s ≤ stationKey c9m) ∧
      selectStation ([c9a] ++ c9m :: [c9c]) = c9m := by
  have h1 : ∀ s ∈ [c9a], stationKey s < stationKey c9m := by
    intro s hs
    simp only [List.mem_singleton] at hs
    subst hs
    norm_num [stationKey, c9a, c9m]
  have h2 : ∀ s ∈ [c9c], stationKey s ≤ stationKey c9m := by
    intro s hs
    simp only [List.mem_singleton] at hs
    subst hs
    norm_num [stationKey, c9c, c9m]
  exact ⟨h1, h2, claim_c9 [c9a] c9m [c9c] h1 h2⟩

/-- Claim C10: an unrated station is ranked with key 0, so whenever some
returned station has a positive power rating, the selected station cannot
be one lacking a power rating. -/
theorem claim_c10 (stations : List Station) (s₀ : Station) (p : ℝ)
    (hmem : s₀ ∈ stations) (hp : s₀.power_kw = some p) (hppos : 0 < p) :
    (selectStation stations).power_kw ≠ none := by
  have hmax : stationKey s₀ ≤ stationKey (selectStation stations) :=
    sortDesc_headI_max stations s₀ hmem
  have hkey : stationKey s₀ = p := by
    unfold stationKey
    rw [hp]
    rfl
  intro hnone
  have h0 : stationKey (selectStation stations) = 0 := by
    unfold stationKey
    rw [hnone]
    rfl
  rw [hkey, h0] at hmax
  linarith

/-- Claim C10 witness: with an unrated station listed before a 100 kW one,
the selected station has a power rating. -/
theorem claim_c10_witness :
    c10b ∈ [c10a, c10b] ∧ c10b.power_kw = some 100 ∧ (0 : ℝ) < 100 ∧
      (selectStation [c10a, c10b]).power_kw ≠ none := by
  have hmem : c10b ∈ [c10a, c10b] := by simp
  have hp : c10b.power_kw = some 100 := rfl
  exact ⟨hmem, hp, by norm_num,
    claim_c10 [c10a, c10b] c10b 100 hmem hp (by norm_num)⟩
